import Mathlib

/-!
Shallow embedding of the error-tracker SDK core pipeline
(configuration validation, scope state, event building, beforeSend
gating, transports, offline queue) together with theorems about the
behaviour of these operations.

JavaScript records (plain objects used as string-keyed maps) are
modelled as association lists with unique keys, where property
assignment overwrites in place, `delete` removes the key, and object
spread merges left-to-right.  `undefined` is modelled explicitly as a
JS value (`JsValue.undef`) where the distinction matters, and optional
object fields are modelled as `Option`.
-/

set_option maxHeartbeats 1000000

/-- A JavaScript runtime value as stored in the extras map: `undefined`
or a defined value (strings, numbers, booleans). -/
inductive JsValue where
  | undef : JsValue
  | str : String → JsValue
  | num : Int → JsValue
  | bool : Bool → JsValue
deriving DecidableEq

/-- JS property assignment `obj[k] = v`: overwrite in place when the key
exists, otherwise append. -/
def jsSet {α : Type} (l : List (String × α)) (k : String) (v : α) :
    List (String × α) :=
  if l.any (fun p => p.1 == k) then
    l.map (fun p => if p.1 == k then (k, v) else p)
  else l ++ [(k, v)]

/-- JS `delete obj[k]`: remove the key. -/
def jsDelete {α : Type} (l : List (String × α)) (k : String) :
    List (String × α) :=
  l.filter (fun p => p.1 != k)

/-- JS object spread merge of two records, second argument winning. -/
def jsMerge {α : Type} (a b : List (String × α)) : List (String × α) :=
  List.foldl (fun acc p => jsSet acc p.1 p.2) a b

/-- JS property read `obj[k]` returning `undefined` as `none` when the
key is absent. -/
def jsGet {α : Type} (l : List (String × α)) (k : String) : Option α :=
  match l with
  | [] => none
  | p :: t => if p.1 == k then some p.2 else jsGet t k

/-- User identity attached to events (`UserInfo` in `types.ts`). -/
structure UserInfo where
  id : Option String := none
  email : Option String := none
  username : Option String := none
deriving DecidableEq

/-- Best-effort source location extracted from a stack trace
(`SourceContext` in `types.ts`). -/
structure SourceContext where
  fileName : Option String := none
  lineNumber : Option Nat := none
  columnNumber : Option Nat := none
  functionName : Option String := none
deriving DecidableEq

/-- The wire/queue unit (`ErrorEvent` in `types.ts`).  Required fields
are non-optional; every other field is `Option`, with `none` standing
for the field being `undefined`/omitted. -/
structure ErrorEvent where
  appId : String
  commitHash : String
  environment : String
  level : String
  message : String
  stackTrace : Option String := none
  metadata : Option (List (String × JsValue)) := none
  sourceContext : Option SourceContext := none
  userAgent : Option String := none
  timestamp : Option String := none
  tags : Option (List (String × String)) := none
  user : Option UserInfo := none
deriving DecidableEq

/-- Result of a transport send (`TransportResponse` in `types.ts`). -/
structure TransportResponse where
  success : Bool
  id : Option String := none
  statusCode : Option Nat := none
  error : Option String := none
deriving DecidableEq

/-- The canonical error produced by `normalizeError`: a message plus an
optional stack trace. -/
structure NormalizedError where
  message : String
  stack : Option String := none
deriving DecidableEq

/-- Caller-supplied options (`ErrorTrackerOptions`), with `none` for an
absent key.  Only the fields consumed by `Config` validation and
defaulting are modelled. -/
structure ErrorTrackerOptions where
  dsn : Option String := none
  appId : Option String := none
  commitHash : Option String := none
  environment : Option String := none
  autoCapture : Option Bool := none
  debug : Option Bool := none
deriving DecidableEq

/-- Options after `{ ...DEFAULT_OPTIONS, ...options }`: the defaults
`autoCapture = true`, `debug = false`, `environment = 'Development'`
survive exactly when the caller did not supply the key. -/
structure MergedOptions where
  dsn : Option String
  appId : Option String
  commitHash : Option String
  environment : String
  autoCapture : Bool
  debug : Bool
deriving DecidableEq

/-- The recognized environments (`VALID_ENVIRONMENTS` in `config.ts`). -/
def VALID_ENVIRONMENTS : List String := ["Production", "Staging", "Development"]

/-- Spread of caller options over `DEFAULT_OPTIONS`. -/
def mergeDefaults (o : ErrorTrackerOptions) : MergedOptions :=
  { dsn := o.dsn
    appId := o.appId
    commitHash := o.commitHash
    environment := o.environment.getD "Development"
    autoCapture := o.autoCapture.getD true
    debug := o.debug.getD false }

/-- JS falsiness of an optional string: `undefined` and the empty string
are falsy (`!this.options.dsn`). -/
def strFalsy : Option String → Bool
  | none => true
  | some s => s == ""

/-- `Config.validate`: throws (modelled as `Except.error`) when dsn,
appId or commitHash is falsy, or the merged environment is not
recognized. -/
def Config.validate (o : MergedOptions) : Except String Unit :=
  if strFalsy o.dsn then .error "ErrorTracker: dsn is required"
  else if strFalsy o.appId then .error "ErrorTracker: appId is required"
  else if strFalsy o.commitHash then .error "ErrorTracker: commitHash is required"
  else if VALID_ENVIRONMENTS.contains o.environment = false then
    .error ("ErrorTracker: environment must be one of: "
      ++ String.intercalate ", " VALID_ENVIRONMENTS)
  else .ok ()

/-- `new Config(options)`: merge over defaults then validate; a
validation failure propagates as a configuration error. -/
def Config.construct (o : ErrorTrackerOptions) : Except String MergedOptions :=
  match Config.validate (mergeDefaults o) with
  | .error e => .error e
  | .ok _ => .ok (mergeDefaults o)

/-- Whether construction succeeded. -/
def constructionSucceeds (r : Except String MergedOptions) : Bool :=
  match r with
  | .ok _ => true
  | .error _ => false

/-- A JSON body that parsed successfully, restricted to the fields
`parseResponse` inspects. -/
structure ParsedJson where
  success : Option Bool := none
  id : Option String := none
  error : Option String := none
deriving DecidableEq

/-- `BaseTransport.parseResponse`: a body with a truthy `success` field
is a success carrying the body's `id`; anything else is a failure
carrying the body's `error`. -/
def BaseTransport.parseResponse (r : ParsedJson) : TransportResponse :=
  if r.success = some true then { success := true, id := r.id }
  else { success := false, error := r.error }

/-- Outcome of attempting to parse the response body as JSON. -/
inductive BodyOutcome where
  | parsed : ParsedJson → BodyOutcome
  | invalid : BodyOutcome
deriving DecidableEq

/-- Observable outcome of the underlying HTTP request. -/
inductive HttpOutcome where
  | response : Nat → BodyOutcome → HttpOutcome
  | netError : String → HttpOutcome
  | timedOut : HttpOutcome
deriving DecidableEq

/-- `NodeTransport.send` as a function of the event and the HTTP
outcome: 2xx with parsable body goes through `parseResponse`, 2xx with
an unparsable body resolves `{ success: true }`, non-2xx resolves a
failure with the status code, and request errors/timeouts resolve
failures.  The promise always resolves, never rejects. -/
def NodeTransport.send (_event : ErrorEvent) (outcome : HttpOutcome) :
    TransportResponse :=
  match outcome with
  | .response statusCode body =>
    if 200 ≤ statusCode ∧ statusCode < 300 then
      match body with
      | .parsed p => BaseTransport.parseResponse p
      | .invalid => { success := true }
    else
      { success := false, statusCode := some statusCode,
        error := some ("HTTP " ++ toString statusCode) }
  | .netError m => { success := false, error := some m }
  | .timedOut => { success := false, error := some "Request timeout" }

/-- The required identity fields a validated configuration exposes to
`buildEvent` (`config.get('appId')!` and friends). -/
structure ConfigCore where
  appId : String
  commitHash : String
  environment : String
deriving DecidableEq

/-- Mutable per-session scope (`Scope` in `types.ts`): tags, user,
extras. -/
structure ScopeState where
  tags : List (String × String)
  user : Option UserInfo
  extras : List (String × JsValue)
deriving DecidableEq

/-- `BaseHub.setExtra`: assigning `undefined` deletes the key,
otherwise the key is stored/overwritten. -/
def BaseHub.setExtra (s : ScopeState) (k : String) (v : JsValue) : ScopeState :=
  if v = JsValue.undef then { s with extras := jsDelete s.extras k }
  else { s with extras := jsSet s.extras k v }

/-- `BaseHub.setExtras`: object-spread merge of the supplied record
over the current extras (`{ ...this.scope.extras, ...extras }`); spread
copies undefined-valued keys like any other own property. -/
def BaseHub.setExtras (s : ScopeState) (m : List (String × JsValue)) : ScopeState :=
  { s with extras := jsMerge s.extras m }

/-- Does some key of the extras map hold the value `undefined`? -/
def hasUndefinedExtra (l : List (String × JsValue)) : Bool :=
  l.any (fun p => p.2 == JsValue.undef)

/-- `BaseHub.buildEvent`: copies identity fields from the
configuration, attaches level and message, the error's stack when an
error was given, snapshots of extras (as metadata) and tags when
non-empty — `undefined` otherwise — the current user, and the current
timestamp. -/
def BaseHub.buildEvent (cfg : ConfigCore) (scope : ScopeState)
    (message level : String) (error : Option NormalizedError)
    (now : String) : ErrorEvent :=
  { appId := cfg.appId
    commitHash := cfg.commitHash
    environment := cfg.environment
    level := level
    message := message
    stackTrace := error.bind NormalizedError.stack
    metadata := if scope.extras.length > 0 then some scope.extras else none
    sourceContext := none
    userAgent := none
    timestamp := some now
    tags := if scope.tags.length > 0 then some scope.tags else none
    user := scope.user }

/-- Observable behaviour of a configured `beforeSend` hook on one
event: it either returns (an event or null) or throws/rejects. -/
inductive HookOutcome where
  | ok : Option ErrorEvent → HookOutcome
  | throws : HookOutcome

/-- `BaseHub.applyBeforeSend`: no hook or a throwing hook yields the
original event; a hook returning null drops the event; a hook
returning an event substitutes it. -/
def BaseHub.applyBeforeSend (hook : Option (ErrorEvent → HookOutcome))
    (event : ErrorEvent) : Option ErrorEvent :=
  match hook with
  | some h =>
    match h event with
    | .ok r => r
    | .throws => some event
  | none => some event

/-- JS `result.id || null`: an absent or empty-string id collapses to
null. -/
def idOrNull (id : Option String) : Option String :=
  match id with
  | some s => if s == "" then none else some s
  | none => none

/-- Observable outcome of one client `sendEvent` call: the resolved id,
the transport `send` calls made, and the events enqueued. -/
structure SendOutcome where
  result : Option String
  sent : List ErrorEvent
  queued : List ErrorEvent
deriving DecidableEq

/-- `BrowserClient.sendEvent`: gate through `applyBeforeSend` (null
drops the event with no send and no enqueue); offline enqueues without
sending; a failed send enqueues; a successful send resolves the id. -/
def BrowserClient.sendEvent (hook : Option (ErrorEvent → HookOutcome))
    (online : Bool) (transport : ErrorEvent → TransportResponse)
    (event : ErrorEvent) : SendOutcome :=
  match BaseHub.applyBeforeSend hook event with
  | none => { result := none, sent := [], queued := [] }
  | some pe =>
    if online = false then { result := none, sent := [], queued := [pe] }
    else
      let r := transport pe
      if r.success = false then { result := none, sent := [pe], queued := [pe] }
      else { result := idOrNull r.id, sent := [pe], queued := [] }

/-- The event `BrowserClient.captureMessage` hands to `sendEvent`: the
hub-built event with the browser user agent attached afterwards. -/
def BrowserClient.capturedMessageEvent (cfg : ConfigCore) (scope : ScopeState)
    (message level ua now : String) : ErrorEvent :=
  { BaseHub.buildEvent cfg scope message level none now with userAgent := some ua }

/-- `BrowserClient.captureMessage`: build, attach user agent, then
`sendEvent`. -/
def BrowserClient.captureMessage (cfg : ConfigCore) (scope : ScopeState)
    (hook : Option (ErrorEvent → HookOutcome)) (online : Bool)
    (transport : ErrorEvent → TransportResponse)
    (message level ua now : String) : SendOutcome :=
  BrowserClient.sendEvent hook online transport
    (BrowserClient.capturedMessageEvent cfg scope message level ua now)

/-- `NodeClient.sendEvent`: gate through `applyBeforeSend`, then one
transport send; returns the resolved id and the send calls made (the
node client has no offline queue). -/
def NodeClient.sendEvent (hook : Option (ErrorEvent → HookOutcome))
    (transport : ErrorEvent → TransportResponse)
    (event : ErrorEvent) : Option String × List ErrorEvent :=
  match BaseHub.applyBeforeSend hook event with
  | none => (none, [])
  | some pe =>
    let r := transport pe
    if r.success = false then (none, [pe]) else (idOrNull r.id, [pe])

/-- Queue capacity (`MAX_QUEUE_SIZE` in the browser client). -/
def MAX_QUEUE_SIZE : Nat := 100

/-- `BrowserClient.enqueue` on the stored event list: shift the oldest
entry when at capacity, then push. -/
def BrowserClient.enqueue (events : List ErrorEvent) (e : ErrorEvent) :
    List ErrorEvent :=
  (if events.length ≥ MAX_QUEUE_SIZE then events.drop 1 else events) ++ [e]

/-- State of the localStorage-backed queue storage, with flags for a
failing persistence layer: `get` returns `[]` when reading throws,
`set` is a no-op when writing throws (both swallow the error). -/
structure StorageState where
  data : List ErrorEvent
  getFails : Bool
  setFails : Bool

/-- `createLocalStorageQueue().get` with its internal try/catch. -/
def QueueStorage.get (s : StorageState) : List ErrorEvent :=
  if s.getFails then [] else s.data

/-- `createLocalStorageQueue().set` with its internal try/catch. -/
def QueueStorage.set (s : StorageState) (events : List ErrorEvent) : StorageState :=
  if s.setFails then s else { s with data := events }

/-- `BrowserClient.enqueue` through the storage layer: read (possibly
failing), evict/append, write back (possibly failing); never throws. -/
def BrowserClient.enqueueStore (s : StorageState) (e : ErrorEvent) : StorageState :=
  QueueStorage.set s (BrowserClient.enqueue (QueueStorage.get s) e)

/-- State relevant to `flushQueue`: the queued events and the
reentrancy flag. -/
structure DrainState where
  queue : List ErrorEvent
  isProcessingQueue : Bool

/-- The `for ... of events` loop of `flushQueue`: send each event in
order; on the first failure push that event into `remaining` and
break.  Events before the failure were delivered; events after it are
never pushed. -/
def BrowserClient.flushLoop (transport : ErrorEvent → TransportResponse) :
    List ErrorEvent → List ErrorEvent
  | [] => []
  | e :: rest =>
    if (transport e).success then BrowserClient.flushLoop transport rest
    else [e]

/-- `BrowserClient.flushQueue`: skip when a drain is in progress;
otherwise run the send loop and write `remaining` back whenever it is
shorter than the list that was read. -/
def BrowserClient.flushQueue (transport : ErrorEvent → TransportResponse)
    (s : DrainState) : DrainState :=
  if s.isProcessingQueue then s
  else
    let events := s.queue
    let remaining := BrowserClient.flushLoop transport events
    if remaining.length < events.length then
      { queue := remaining, isProcessingQueue := false }
    else
      { queue := s.queue, isProcessingQueue := false }

/-- A tags object on the JS heap. -/
abbrev TagObj := List (String × String)

/-- A heap of tags objects, addressed by allocation index.  Object
identity (reference vs copy) is what distinguishes the snapshot taken
by `buildEvent` (`{ ...this.scope.tags }`) from an alias to the live
scope map. -/
structure Heap where
  objs : List TagObj

/-- Read the object at a reference. -/
def Heap.read (h : Heap) (r : Nat) : TagObj :=
  h.objs.getD r []

/-- Overwrite the object at a reference in place. -/
def Heap.write (h : Heap) (r : Nat) (o : TagObj) : Heap :=
  { objs := h.objs.set r o }

/-- Allocate a fresh object, returning the new heap and its reference. -/
def Heap.alloc (h : Heap) (o : TagObj) : Heap × Nat :=
  ({ objs := h.objs ++ [o] }, h.objs.length)

/-- The hub state relevant to tag aliasing: the reference the scope's
`tags` field currently points at. -/
structure HubTagsState where
  tagsRef : Nat

/-- `BaseHub.setTag`: `this.scope.tags[key] = value` mutates the tags
object in place through the scope's reference. -/
def BaseHub.setTag (h : Heap) (st : HubTagsState) (k v : String) : Heap :=
  Heap.write h st.tagsRef (jsSet (Heap.read h st.tagsRef) k v)

/-- `BaseHub.setTags`: `this.scope.tags = { ...this.scope.tags,
...tags }` allocates a merged object and repoints the scope at it. -/
def BaseHub.setTags (h : Heap) (st : HubTagsState) (m : TagObj) :
    Heap × HubTagsState :=
  let alloc := Heap.alloc h (jsMerge (Heap.read h st.tagsRef) m)
  (alloc.1, { tagsRef := alloc.2 })

/-- The tags part of `BaseHub.buildEvent` at heap level: when the
current tags map is non-empty, allocate a fresh copy
(`{ ...this.scope.tags }`) and attach a reference to the copy;
otherwise attach `undefined`. -/
def BaseHub.buildEventTags (h : Heap) (st : HubTagsState) :
    Heap × Option Nat :=
  let cur := Heap.read h st.tagsRef
  if cur.length > 0 then
    let alloc := Heap.alloc h cur
    (alloc.1, some alloc.2)
  else (h, none)

/-- The behaviour parameters of one browser client, as consumed by the
package-level singleton functions. -/
structure BrowserClientModel where
  cfg : ConfigCore
  scope : ScopeState
  hook : Option (ErrorEvent → HookOutcome)
  online : Bool
  transport : ErrorEvent → TransportResponse
  ua : String
  now : String

/-- The module-level singleton state of the browser package: the
global `client` reference. -/
structure ModuleState where
  client : Option BrowserClientModel

/-- Package-level `close()`: destroys the client and resets the
singleton to null. -/
def close (_s : ModuleState) : ModuleState :=
  { client := none }

/-- Observable outcome of a package-level capture call: the resolved
id, whether the not-initialized console warning fired, the events
built, the transport sends made, and the events enqueued. -/
structure ModuleCaptureOutcome where
  result : Option String
  warned : Bool
  built : List ErrorEvent
  sent : List ErrorEvent
  queued : List ErrorEvent
deriving DecidableEq

/-- Package-level `captureMessage`: with no client, warn and resolve
null; otherwise delegate to the client. -/
def captureMessageModule (s : ModuleState) (message level : String) :
    ModuleCaptureOutcome :=
  match s.client with
  | none => { result := none, warned := true, built := [], sent := [], queued := [] }
  | some c =>
    let ev := BrowserClient.capturedMessageEvent c.cfg c.scope message level c.ua c.now
    let out := BrowserClient.sendEvent c.hook c.online c.transport ev
    { result := out.result, warned := false, built := [ev],
      sent := out.sent, queued := out.queued }

/-- The event `BrowserClient.captureException` hands to `sendEvent`:
the hub-built event for the normalized error, with user agent and the
parsed source context attached afterwards. -/
def BrowserClient.capturedExceptionEvent (cfg : ConfigCore) (scope : ScopeState)
    (err : NormalizedError) (level ua now : String)
    (sc : Option SourceContext) : ErrorEvent :=
  { BaseHub.buildEvent cfg scope err.message level (some err) now with
      userAgent := some ua, sourceContext := sc }

/-- Package-level `captureException`: with no client, warn and resolve
null; otherwise delegate to the client (`sc` stands for the result of
`parseStackTrace` on the normalized error's stack). -/
def captureExceptionModule (s : ModuleState) (err : NormalizedError)
    (level : String) (sc : Option SourceContext) : ModuleCaptureOutcome :=
  match s.client with
  | none => { result := none, warned := true, built := [], sent := [], queued := [] }
  | some c =>
    let ev := BrowserClient.capturedExceptionEvent c.cfg c.scope err level c.ua c.now sc
    let out := BrowserClient.sendEvent c.hook c.online c.transport ev
    { result := out.result, warned := false, built := [ev],
      sent := out.sent, queued := out.queued }

/-- A concrete event used for evaluations, distinguished by message. -/
def sampleEvent (m : String) : ErrorEvent :=
  { appId := "app", commitHash := "c1", environment := "Production",
    level := "Error", message := m,
    timestamp := some "2026-01-01T00:00:00.000Z" }

/-- A transport behaviour that fails exactly on the event with message
`m2` and succeeds on every other event. -/
def failSecondTransport : ErrorEvent → TransportResponse := fun e =>
  if e.message == "m2" then { success := false, error := some "network error" }
  else { success := true, id := some "evt" }

/-- A transport behaviour that always succeeds with a fixed id. -/
def okTransport : ErrorEvent → TransportResponse := fun _ =>
  { success := true, id := some "evt-1" }

/-- The outcome of a package-level capture call made with no
initialized client: null id, a console warning, and no building,
sending or queueing. -/
def warnOnlyOutcome : ModuleCaptureOutcome :=
  { result := none, warned := true, built := [], sent := [], queued := [] }

/-- 101 pairwise distinct events, used to evaluate the queue eviction
policy. -/
def queueWitnessEvents : List ErrorEvent :=
  (List.range 101).map (fun i => sampleEvent (toString i))

/-! ## Theorems -/

/-- C1: evaluation of `flushQueue` at a queue of 3 events whose
transport fails on the 2nd: only the failed 2nd event is written back;
the untried 3rd event is dropped, so the queue holds 1 event, not the
2 the specification requires. -/
theorem flushQueue_drops_untried_after_failure :
    (BrowserClient.flushQueue failSecondTransport
      { queue := [sampleEvent "m1", sampleEvent "m2", sampleEvent "m3"],
        isProcessingQueue := false }).queue = [sampleEvent "m2"]
    ∧ (BrowserClient.flushQueue failSecondTransport
      { queue := [sampleEvent "m1", sampleEvent "m2", sampleEvent "m3"],
        isProcessingQueue := false }).queue.length = 1 :=
  ⟨rfl, rfl⟩

/-- C2: for every event, a 2xx HTTP response whose body fails JSON
parsing resolves to a success result with no id (and no status code or
error); the send never resolves a failure and never rejects. -/
theorem nodeTransport_2xx_invalid_json_is_success (event : ErrorEvent)
    (status : Nat) (h1 : 200 ≤ status) (h2 : status < 300) :
    NodeTransport.send event (HttpOutcome.response status BodyOutcome.invalid)
      = { success := true, id := none, statusCode := none, error := none } := by
  simp [NodeTransport.send, h1, h2]

/-- Witness for C2 at status 204 and a concrete event. -/
theorem nodeTransport_2xx_invalid_json_is_success_witness :
    (200 ≤ 204 ∧ 204 < 300)
    ∧ NodeTransport.send (sampleEvent "m") (HttpOutcome.response 204 BodyOutcome.invalid)
      = { success := true, id := none, statusCode := none, error := none } :=
  ⟨by decide,
   nodeTransport_2xx_invalid_json_is_success (sampleEvent "m") 204 (by decide) (by decide)⟩

/-- C3 counterexample: with dsn, appId and commitHash supplied but the
environment key absent, construction succeeds (the merge defaults the
environment to Development before validation), contradicting the claim
that an absent environment raises a configuration error. -/
theorem construct_succeeds_with_absent_environment :
    constructionSucceeds (Config.construct
      { dsn := some "https://x", appId := some "a", commitHash := some "c1" }) = true :=
  rfl

/-- C3 (amended): construction succeeds exactly when dsn, appId and
commitHash are present and non-empty and the environment after
defaulting (absent defaults to Development) is one of
Production/Staging/Development; in every other case it raises a
configuration error. -/
theorem construct_ok_iff (o : ErrorTrackerOptions) :
    constructionSucceeds (Config.construct o) = true ↔
      (strFalsy o.dsn = false ∧ strFalsy o.appId = false
       ∧ strFalsy o.commitHash = false
       ∧ o.environment.getD "Development" ∈ VALID_ENVIRONMENTS) := by
  simp only [constructionSucceeds, Config.construct, Config.validate, mergeDefaults]
  split_ifs with h1 h2 h3 h4 <;>
    simp_all [List.elem_iff]

/-- C10: a package-level `captureMessage` or `captureException` made
with no initialized client — before `init` or after `close` has reset
the singleton — resolves to a null id, builds no event, performs no
transport send and no enqueue, and only emits the console warning. -/
theorem capture_without_client_warns_only (s : ModuleState)
    (message level : String) (err : NormalizedError) (sc : Option SourceContext) :
    captureMessageModule { client := none } message level = warnOnlyOutcome
    ∧ captureExceptionModule { client := none } err level sc = warnOnlyOutcome
    ∧ captureMessageModule (close s) message level = warnOnlyOutcome
    ∧ captureExceptionModule (close s) err level sc = warnOnlyOutcome :=
  ⟨rfl, rfl, rfl, rfl⟩

/-- C5: every built event carries appId, commitHash and environment
copied from the configuration and the call's level and message, while
the tags and metadata fields are omitted (undefined) exactly when the
respective scope maps are empty at call time, and carry the non-empty
snapshot otherwise. -/
theorem buildEvent_required_fields_and_empty_omission (cfg : ConfigCore)
    (scope : ScopeState) (message level : String)
    (error : Option NormalizedError) (now : String) :
    (BaseHub.buildEvent cfg scope message level error now).appId = cfg.appId
    ∧ (BaseHub.buildEvent cfg scope message level error now).commitHash = cfg.commitHash
    ∧ (BaseHub.buildEvent cfg scope message level error now).environment = cfg.environment
    ∧ (BaseHub.buildEvent cfg scope message level error now).level = level
    ∧ (BaseHub.buildEvent cfg scope message level error now).message = message
    ∧ (BaseHub.buildEvent cfg scope message level error now).tags
        = (if scope.tags.isEmpty then none else some scope.tags)
    ∧ (BaseHub.buildEvent cfg scope message level error now).metadata
        = (if scope.extras.isEmpty then none else some scope.extras) := by
  refine ⟨rfl, rfl, rfl, rfl, rfl, ?_, ?_⟩
  · obtain ⟨tags, user, extras⟩ := scope
    cases tags <;> simp [BaseHub.buildEvent]
  · obtain ⟨tags, user, extras⟩ := scope
    cases extras <;> simp [BaseHub.buildEvent]

/-- C6: a configured beforeSend hook that throws on the built event is
swallowed — `applyBeforeSend` yields the original event unmodified —
and the (online) send path still calls the transport with exactly that
unmodified event, whatever the transport then does. -/
theorem beforeSend_throw_event_still_sent (hk : ErrorEvent → HookOutcome)
    (event : ErrorEvent) (transport : ErrorEvent → TransportResponse)
    (h : hk event = HookOutcome.throws) :
    BaseHub.applyBeforeSend (some hk) event = some event
    ∧ (BrowserClient.sendEvent (some hk) true transport event).sent = [event] := by
  constructor
  · simp [BaseHub.applyBeforeSend, h]
  · simp only [BrowserClient.sendEvent, BaseHub.applyBeforeSend, h]
    split
    · simp_all
    · split <;> rfl

/-- Witness for C6 with a hook that always throws, a concrete event and
an always-succeeding transport. -/
theorem beforeSend_throw_event_still_sent_witness :
    (fun _ : ErrorEvent => HookOutcome.throws) (sampleEvent "w6") = HookOutcome.throws
    ∧ (BaseHub.applyBeforeSend (some (fun _ => HookOutcome.throws)) (sampleEvent "w6")
         = some (sampleEvent "w6")
       ∧ (BrowserClient.sendEvent (some (fun _ => HookOutcome.throws)) true okTransport
           (sampleEvent "w6")).sent = [sampleEvent "w6"]) :=
  ⟨rfl, beforeSend_throw_event_still_sent (fun _ => HookOutcome.throws)
    (sampleEvent "w6") okTransport rfl⟩

/-- C7: a configured beforeSend hook that returns null for the built
event makes the browser `captureMessage` resolve null with no
transport send and no enqueue, and makes the node `sendEvent` resolve
null with no transport send. -/
theorem beforeSend_drop_resolves_null_no_send (cfg : ConfigCore)
    (scope : ScopeState) (hk : ErrorEvent → HookOutcome) (online : Bool)
    (transport transportN : ErrorEvent → TransportResponse)
    (message level ua now : String) (eventN : ErrorEvent)
    (h1 : hk (BrowserClient.capturedMessageEvent cfg scope message level ua now)
            = HookOutcome.ok none)
    (h2 : hk eventN = HookOutcome.ok none) :
    BrowserClient.captureMessage cfg scope (some hk) online transport
        message level ua now = { result := none, sent := [], queued := [] }
    ∧ NodeClient.sendEvent (some hk) transportN eventN = (none, []) := by
  constructor
  · simp [BrowserClient.captureMessage, BrowserClient.sendEvent,
      BaseHub.applyBeforeSend, h1]
  · simp [NodeClient.sendEvent, BaseHub.applyBeforeSend, h2]

/-- Witness for C7 with a hook that always returns null and concrete
inputs. -/
theorem beforeSend_drop_resolves_null_no_send_witness :
    ((fun _ : ErrorEvent => HookOutcome.ok none)
        (BrowserClient.capturedMessageEvent ⟨"app", "c1", "Production"⟩
          ⟨[], none, []⟩ "hello" "Warning" "ua" "t0") = HookOutcome.ok none
     ∧ (fun _ : ErrorEvent => HookOutcome.ok none) (sampleEvent "w7") = HookOutcome.ok none)
    ∧ (BrowserClient.captureMessage ⟨"app", "c1", "Production"⟩ ⟨[], none, []⟩
         (some (fun _ => HookOutcome.ok none)) true okTransport "hello" "Warning" "ua" "t0"
         = { result := none, sent := [], queued := [] }
       ∧ NodeClient.sendEvent (some (fun _ => HookOutcome.ok none)) okTransport
           (sampleEvent "w7") = (none, [])) :=
  ⟨⟨rfl, rfl⟩,
   beforeSend_drop_resolves_null_no_send ⟨"app", "c1", "Production"⟩ ⟨[], none, []⟩
     (fun _ => HookOutcome.ok none) true okTransport okTransport
     "hello" "Warning" "ua" "t0" (sampleEvent "w7") rfl rfl⟩

/-- An extras map is free of undefined values iff no member holds
`undefined`. -/
theorem hasUndefinedExtra_eq_false_iff (l : List (String × JsValue)) :
    hasUndefinedExtra l = false ↔ ∀ p ∈ l, p.2 ≠ JsValue.undef := by
  rw [← Bool.not_eq_true]
  simp only [hasUndefinedExtra, List.any_eq_true, beq_iff_eq, not_exists, not_and]

/-- Deleting a key preserves freedom from undefined values. -/
theorem hasUndefinedExtra_jsDelete (l : List (String × JsValue)) (k : String)
    (h : hasUndefinedExtra l = false) :
    hasUndefinedExtra (jsDelete l k) = false := by
  rw [hasUndefinedExtra_eq_false_iff] at h ⊢
  intro p hp
  exact h p (List.mem_of_mem_filter hp)

/-- Storing a defined value preserves freedom from undefined values. -/
theorem hasUndefinedExtra_jsSet (l : List (String × JsValue)) (k : String)
    (v : JsValue) (hv : v ≠ JsValue.undef) (h : hasUndefinedExtra l = false) :
    hasUndefinedExtra (jsSet l k v) = false := by
  rw [hasUndefinedExtra_eq_false_iff] at h ⊢
  intro p hp
  unfold jsSet at hp
  split at hp
  · obtain ⟨q, hq, hqe⟩ := List.mem_map.mp hp
    by_cases hqk : (q.1 == k) = true
    · rw [if_pos hqk] at hqe
      rw [← hqe]
      exact hv
    · rw [if_neg hqk] at hqe
      rw [← hqe]
      exact h q hq
  · rcases List.mem_append.mp hp with hmem | hmem
    · exact h p hmem
    · rw [List.mem_singleton.mp hmem]
      exact hv

/-- After deleting a key, reading it yields `undefined` (`none`). -/
theorem jsGet_jsDelete (l : List (String × JsValue)) (k : String) :
    jsGet (jsDelete l k) k = none := by
  induction l with
  | nil => rfl
  | cons p t ih =>
    unfold jsDelete at ih ⊢
    rw [List.filter_cons]
    by_cases hpk : (p.1 == k) = true
    · simp only [bne, hpk, Bool.not_true, Bool.false_eq_true, if_false]
      exact ih
    · simp only [bne, Bool.not_eq_true] at hpk ⊢
      simp only [hpk, Bool.not_false, if_true, jsGet, Bool.false_eq_true, if_false]
      exact ih

/-- C4 counterexample: `setExtras` with an undefined-valued key stores
that key (object spread copies every own property, undefined-valued
ones included), so after this extras mutation the scope's extras map
holds an undefined value — the claimed invariant fails for
`setExtras`. -/
theorem setExtras_stores_undefined_key :
    hasUndefinedExtra (BaseHub.setExtras ⟨[], none, []⟩ [("k", JsValue.undef)]).extras = true
    ∧ jsGet (BaseHub.setExtras ⟨[], none, []⟩ [("k", JsValue.undef)]).extras "k"
        = some JsValue.undef :=
  ⟨rfl, rfl⟩

/-- C4 (amended): `setExtra` never stores undefined — assigning
undefined deletes the key, and an extras map free of undefined values
stays free of them under any `setExtra`; `setExtras`, by contrast,
spread-merges its argument verbatim and can store undefined-valued
keys. -/
theorem setExtra_never_stores_undefined (s : ScopeState) (k : String)
    (v : JsValue) (h : hasUndefinedExtra s.extras = false) :
    hasUndefinedExtra (BaseHub.setExtra s k v).extras = false
    ∧ jsGet (BaseHub.setExtra s k JsValue.undef).extras k = none := by
  constructor
  · unfold BaseHub.setExtra
    by_cases hv : v = JsValue.undef
    · rw [if_pos hv]
      exact hasUndefinedExtra_jsDelete _ _ h
    · rw [if_neg hv]
      exact hasUndefinedExtra_jsSet _ _ _ hv h
  · simp only [BaseHub.setExtra, if_pos rfl]
    exact jsGet_jsDelete _ _

/-- Witness for C4's amended theorem on a concrete undefined-free
scope. -/
theorem setExtra_never_stores_undefined_witness :
    hasUndefinedExtra (ScopeState.mk [] none [("a", JsValue.str "x")]).extras = false
    ∧ (hasUndefinedExtra (BaseHub.setExtra ⟨[], none, [("a", JsValue.str "x")]⟩
          "a" (JsValue.str "y")).extras = false
       ∧ jsGet (BaseHub.setExtra ⟨[], none, [("a", JsValue.str "x")]⟩
          "a" JsValue.undef).extras "a" = none) :=
  ⟨rfl, setExtra_never_stores_undefined ⟨[], none, [("a", JsValue.str "x")]⟩
    "a" (JsValue.str "y") rfl⟩

/-- The queue contents after a run of enqueues: starting from a list
within capacity, a fold of `enqueue` keeps exactly the most recent
`MAX_QUEUE_SIZE` entries, in order. -/
theorem foldl_enqueue_eq_drop (l : List ErrorEvent) :
    ∀ init : List ErrorEvent, init.length ≤ MAX_QUEUE_SIZE →
      List.foldl BrowserClient.enqueue init l
        = (init ++ l).drop (init.length + l.length - MAX_QUEUE_SIZE) := by
  induction l with
  | nil =>
    intro init h
    have h0 : init.length + List.length ([] : List ErrorEvent) - MAX_QUEUE_SIZE = 0 := by
      simp only [List.length_nil]
      omega
    rw [List.foldl_nil, h0, List.append_nil, List.drop_zero]
  | cons e t ih =>
    intro init h
    rw [List.foldl_cons]
    by_cases hc : init.length ≥ MAX_QUEUE_SIZE
    · have h100 : init.length = MAX_QUEUE_SIZE := le_antisymm h hc
      obtain ⟨i0, init', rfl⟩ : ∃ a as, init = a :: as := by
        cases init with
        | nil => simp [MAX_QUEUE_SIZE] at h100
        | cons a as => exact ⟨a, as, rfl⟩
      have henq : BrowserClient.enqueue (i0 :: init') e = init' ++ [e] := by
        simp only [BrowserClient.enqueue, if_pos hc, List.drop_one, List.tail_cons]
      have hlen : (init' ++ [e]).length = MAX_QUEUE_SIZE := by
        simp only [List.length_cons] at h100
        simp only [List.length_append, List.length_singleton]
        omega
      rw [henq, ih (init' ++ [e]) (le_of_eq hlen), List.append_assoc,
        List.singleton_append, hlen]
      have ha : MAX_QUEUE_SIZE + t.length - MAX_QUEUE_SIZE = t.length := by omega
      have hb : (i0 :: init').length + (e :: t).length - MAX_QUEUE_SIZE
          = t.length + 1 := by
        simp only [List.length_cons] at h100 ⊢
        omega
      rw [ha, hb, List.cons_append, List.drop_succ_cons]
    · have henq : BrowserClient.enqueue init e = init ++ [e] := by
        simp only [BrowserClient.enqueue, if_neg hc]
      have hlen : (init ++ [e]).length ≤ MAX_QUEUE_SIZE := by
        simp only [List.length_append, List.length_singleton]
        omega
      have hamt : (init ++ [e]).length + t.length - MAX_QUEUE_SIZE
          = init.length + (e :: t).length - MAX_QUEUE_SIZE := by
        simp only [List.length_append, List.length_singleton, List.length_cons, List.length_nil]
        omega
      rw [henq, ih (init ++ [e]) hlen, List.append_assoc, List.singleton_append, hamt]

/-- C8: for every sequence of 101 enqueues into an initially empty
capacity-100 queue, the result is exactly the last 100 events in
insertion order — the first-enqueued event is evicted and the 101st is
at the end — and the queue holds exactly 100 entries. -/
theorem enqueue_101_evicts_oldest (l : List ErrorEvent) (h : l.length = 101) :
    List.foldl BrowserClient.enqueue [] l = l.drop 1
    ∧ (List.foldl BrowserClient.enqueue [] l).length = 100 := by
  have h0 := foldl_enqueue_eq_drop l [] (by simp [MAX_QUEUE_SIZE])
  simp only [List.nil_append, List.length_nil, Nat.zero_add] at h0
  have h1 : l.length - MAX_QUEUE_SIZE = 1 := by rw [h]; rfl
  constructor
  · rw [h0, h1]
  · rw [h0, h1, List.length_drop, h]

/-- Witness for C8 on 101 concrete pairwise distinct events. -/
theorem enqueue_101_evicts_oldest_witness :
    queueWitnessEvents.length = 101
    ∧ (List.foldl BrowserClient.enqueue [] queueWitnessEvents
        = queueWitnessEvents.drop 1
       ∧ (List.foldl BrowserClient.enqueue [] queueWitnessEvents).length = 100) :=
  ⟨by simp [queueWitnessEvents],
   enqueue_101_evicts_oldest queueWitnessEvents (by simp [queueWitnessEvents])⟩

/-- Reading a freshly appended object at its allocation index yields
that object. -/
theorem Heap.read_concat (l : List TagObj) (o : TagObj) :
    Heap.read ⟨l ++ [o]⟩ l.length = o := by
  simp only [Heap.read, List.getD_eq_getElem?_getD, List.getElem?_concat_length,
    Option.getD_some]

/-- Appending objects does not change reads below the old length. -/
theorem Heap.read_append_of_lt (l l2 : List TagObj) (n : Nat)
    (hn : n < l.length) :
    Heap.read ⟨l ++ l2⟩ n = Heap.read ⟨l⟩ n := by
  simp only [Heap.read, List.getD_eq_getElem?_getD]
  rw [List.getElem?_append_left hn]

/-- Writing one index does not change reads at a different index. -/
theorem Heap.read_set_of_ne (l : List TagObj) (i n : Nat) (o : TagObj)
    (hne : i ≠ n) :
    Heap.read ⟨l.set i o⟩ n = Heap.read ⟨l⟩ n := by
  simp only [Heap.read, List.getD_eq_getElem?_getD]
  rw [List.getElem?_set_ne hne]

/-- C9: building an event snapshots the tags — `buildEventTags`
allocates a fresh copy and the event references the copy, so reading
the event's tags yields the build-time tags, and neither a later
`setTag` (in-place mutation through the scope's live reference) nor a
later `setTags` (reference replacement) changes what the built event's
reference denotes. -/
theorem built_event_tags_immune_to_scope_mutation (h : Heap)
    (st : HubTagsState) (k v : String) (m : TagObj) (r : Nat)
    (hval : st.tagsRef < h.objs.length)
    (hr : (BaseHub.buildEventTags h st).2 = some r) :
    Heap.read (BaseHub.buildEventTags h st).1 r = Heap.read h st.tagsRef
    ∧ Heap.read (BaseHub.setTag (BaseHub.buildEventTags h st).1 st k v) r
        = Heap.read h st.tagsRef
    ∧ Heap.read (BaseHub.setTags (BaseHub.buildEventTags h st).1 st m).1 r
        = Heap.read h st.tagsRef := by
  by_cases hne : (Heap.read h st.tagsRef).length > 0
  · have hpair : BaseHub.buildEventTags h st
        = (⟨h.objs ++ [Heap.read h st.tagsRef]⟩, some h.objs.length) := by
      simp [BaseHub.buildEventTags, Heap.alloc, hne]
    rw [hpair] at hr
    have hrr : r = h.objs.length := (Option.some.inj hr).symm
    subst hrr
    rw [hpair]
    refine ⟨Heap.read_concat _ _, ?_, ?_⟩
    · have hne2 : st.tagsRef ≠ h.objs.length := Nat.ne_of_lt hval
      simp only [BaseHub.setTag, Heap.write]
      rw [Heap.read_set_of_ne _ _ _ _ hne2]
      exact Heap.read_concat _ _
    · have hlt : h.objs.length < (h.objs ++ [Heap.read h st.tagsRef]).length := by
        simp
      simp only [BaseHub.setTags, Heap.alloc]
      rw [Heap.read_append_of_lt _ _ _ hlt]
      exact Heap.read_concat _ _
  · have hnone : (BaseHub.buildEventTags h st).2 = none := by
      simp [BaseHub.buildEventTags, hne]
    rw [hnone] at hr
    exact absurd hr (by simp)

/-- Witness for C9 on a one-object heap: the scope tags live at
reference 0, the built event snapshot at reference 1. -/
theorem built_event_tags_immune_witness :
    ((0 : Nat) < (Heap.mk [[("a", "1")]]).objs.length
     ∧ (BaseHub.buildEventTags (Heap.mk [[("a", "1")]]) ⟨0⟩).2 = some 1)
    ∧ (Heap.read (BaseHub.buildEventTags (Heap.mk [[("a", "1")]]) ⟨0⟩).1 1
         = Heap.read (Heap.mk [[("a", "1")]]) 0
       ∧ Heap.read (BaseHub.setTag
           (BaseHub.buildEventTags (Heap.mk [[("a", "1")]]) ⟨0⟩).1 ⟨0⟩ "a" "2") 1
         = Heap.read (Heap.mk [[("a", "1")]]) 0
       ∧ Heap.read (BaseHub.setTags
           (BaseHub.buildEventTags (Heap.mk [[("a", "1")]]) ⟨0⟩).1 ⟨0⟩ [("b", "3")]).1 1
         = Heap.read (Heap.mk [[("a", "1")]]) 0) :=
  ⟨⟨by decide, rfl⟩,
   built_event_tags_immune_to_scope_mutation (Heap.mk [[("a", "1")]]) ⟨0⟩
     "a" "2" [("b", "3")] 1 (by decide) rfl⟩
